import Mathlib

/-!
Verification of the git-tools repository manager (grm), Rust implementation
under src/src.  Strings from the source are embedded as `String` or
`List Char`; process spawns are embedded as traces of events; exit statuses
are `Int` parameters.  Every definition is translated from the source files
(main.rs, config.rs, repository.rs, mode.rs); deviations forced by the
embedding (fuel, renamed fields) are noted where they occur.
-/

/-! ## Tokenizer (src/src/config.rs) -/

/-- Separator character used in .grm.repos files (main.rs, LIST_SEPARATOR). -/
def LIST_SEPARATOR : Char := '*'

/-- Rust `char::is_whitespace`: the Unicode White_Space property.  The
full set (Unicode 15): TAB, LF, VT, FF, CR, SPACE, NEL (U+0085),
NBSP (U+00A0), Ogham space mark (U+1680), the U+2000..U+200A spaces,
line separator (U+2028), paragraph separator (U+2029), narrow NBSP
(U+202F), medium mathematical space (U+205F) and ideographic space
(U+3000). -/
def is_rust_whitespace (c : Char) : Bool :=
  c.toNat == 0x09 || c.toNat == 0x0A || c.toNat == 0x0B || c.toNat == 0x0C ||
  c.toNat == 0x0D || c.toNat == 0x20 || c.toNat == 0x85 || c.toNat == 0xA0 ||
  c.toNat == 0x1680 || (0x2000 ≤ c.toNat && c.toNat ≤ 0x200A) ||
  c.toNat == 0x2028 || c.toNat == 0x2029 || c.toNat == 0x202F ||
  c.toNat == 0x205F || c.toNat == 0x3000

/-- config.rs `skip_whitespace`: drop leading whitespace except CR and
LF, with whitespace as Rust `char::is_whitespace` (Unicode White_Space). -/
def skip_whitespace (input : List Char) : List Char :=
  input.dropWhile (fun c => is_rust_whitespace c && c != '\r' && c != '\n')

/-- The character-consuming loop of config.rs `parse_config_cell` (lines
343-380).  Each produced item is the cell character paired with a flag that
is true when the character was written by an escape `\X`; the Rust code
instead tracks `rtrim_pos`, the cell length right after the last escaped or
non-whitespace character, which identifies the same suffix that
`rtrim_items` below removes.  A backslash with nothing after it is the
"trailing backslash" grammar error, as in the source. -/
def parse_cell_go : List Char → Except String (List (Char × Bool) × List Char)
  | [] => .ok ([], [])
  | c :: rest =>
    if c = '\r' ∨ c = '\n' ∨ c = LIST_SEPARATOR then .ok ([], c :: rest)
    else if c = '\\' then
      match rest with
      | [] => .error "Trailing backslash at end of line with nothing to escape"
      | e :: rest2 =>
        match parse_cell_go rest2 with
        | .error msg => .error msg
        | .ok (items, rem) => .ok ((e, true) :: items, rem)
    else
      match parse_cell_go rest with
      | .error msg => .error msg
      | .ok (items, rem) => .ok ((c, false) :: items, rem)

/-- `cell.truncate(rtrim_pos)` of parse_config_cell: remove the maximal
trailing run of unescaped whitespace characters. -/
def rtrim_items (items : List (Char × Bool)) : List Char :=
  ((items.reverse.dropWhile (fun p => !p.2 && is_rust_whitespace p.1)).reverse).map Prod.fst

/-- config.rs `parse_config_cell` (lines 328-387): skip leading whitespace;
an empty rest, a line ending or a separator yields the empty cell and the
skipped input; otherwise run the character loop and right-trim. -/
def parse_config_cell (input : List Char) : Except String (List Char × List Char) :=
  match skip_whitespace input with
  | [] => .ok ([], [])
  | c :: rest =>
    if c = '\n' ∨ c = '\r' ∨ c = LIST_SEPARATOR then .ok ([], c :: rest)
    else
      match parse_cell_go (c :: rest) with
      | .error msg => .error msg
      | .ok (items, rem) => .ok (rtrim_items items, rem)

theorem parse_cell_go_cons (c : Char) (rest : List Char) :
    parse_cell_go (c :: rest) =
      if c = '\r' ∨ c = '\n' ∨ c = LIST_SEPARATOR then .ok ([], c :: rest)
      else if c = '\\' then
        match rest with
        | [] => .error "Trailing backslash at end of line with nothing to escape"
        | e :: rest2 =>
          match parse_cell_go rest2 with
          | .error msg => .error msg
          | .ok (items, rem) => .ok ((e, true) :: items, rem)
      else
        match parse_cell_go rest with
        | .error msg => .error msg
        | .ok (items, rem) => .ok ((c, false) :: items, rem) := by
  rw [parse_cell_go.eq_def]

theorem parse_cell_go_length_aux :
    ∀ (n : Nat) (l : List Char), l.length ≤ n →
      ∀ items rem, parse_cell_go l = .ok (items, rem) → rem.length ≤ l.length := by
  intro n
  induction n with
  | zero =>
    intro l hl items rem h
    cases l with
    | nil =>
      simp only [parse_cell_go, Except.ok.injEq, Prod.mk.injEq] at h
      simp [← h.2]
    | cons c rest =>
      simp only [List.length_cons] at hl
      omega
  | succ n ih =>
    intro l hl items rem h
    cases l with
    | nil =>
      simp only [parse_cell_go, Except.ok.injEq, Prod.mk.injEq] at h
      rw [← h.2]
    | cons c rest =>
      rw [parse_cell_go_cons] at h
      by_cases hstop : c = '\r' ∨ c = '\n' ∨ c = LIST_SEPARATOR
      · rw [if_pos hstop] at h
        simp only [Except.ok.injEq, Prod.mk.injEq] at h
        simp [← h.2]
      · rw [if_neg hstop] at h
        by_cases hesc : c = '\\'
        · rw [if_pos hesc] at h
          cases rest with
          | nil => simp at h
          | cons e rest2 =>
            simp only at h
            cases hgo : parse_cell_go rest2 with
            | error msg => rw [hgo] at h; cases h
            | ok pr =>
              rw [hgo] at h
              simp only [Except.ok.injEq, Prod.mk.injEq] at h
              have hrec := ih rest2 (by simp at hl; omega) pr.1 pr.2 (by rw [hgo])
              rw [← h.2]
              simp only [List.length_cons]
              omega
        · rw [if_neg hesc] at h
          cases hgo : parse_cell_go rest with
          | error msg => rw [hgo] at h; cases h
          | ok pr =>
            rw [hgo] at h
            simp only [Except.ok.injEq, Prod.mk.injEq] at h
            have hrec := ih rest (by simp at hl; omega) pr.1 pr.2 (by rw [hgo])
            rw [← h.2]
            simp only [List.length_cons]
            omega

theorem parse_cell_go_length (l : List Char) :
    ∀ items rem, parse_cell_go l = .ok (items, rem) → rem.length ≤ l.length :=
  parse_cell_go_length_aux l.length l (Nat.le_refl _)

theorem skip_whitespace_length (l : List Char) :
    (skip_whitespace l).length ≤ l.length :=
  (List.dropWhile_suffix _).sublist.length_le

theorem parse_config_cell_length (l : List Char) :
    ∀ cell rem, parse_config_cell l = .ok (cell, rem) → rem.length ≤ l.length := by
  intro cell rem h
  have hs := skip_whitespace_length l
  unfold parse_config_cell at h
  split at h
  · cases h
    simp
  · next c rest heq =>
    rw [heq] at hs
    split at h
    · cases h
      exact hs
    · split at h
      · cases h
      · next items rem2 hgo =>
        cases h
        have := parse_cell_go_length _ _ _ hgo
        simp only [List.length_cons] at hs this
        omega

/-- config.rs `slice_to_eol`: the input from the first CR or LF on, or the
empty tail when no line ending exists. -/
def slice_to_eol (input : List Char) : List Char :=
  input.dropWhile (fun c => c != '\r' && c != '\n')

/-- The cell loop of config.rs `parse_config_line` (lines 428-462): while
the remainder starts with the separator, consume it and parse another cell.
A later cell starting with `#` truncates the line at the end of the physical
line; a cell parse that makes no progress stops the loop after pushing the
cell. -/
def parse_line_loop (input : List Char) : Except String (List (List Char) × List Char) :=
  match input with
  | [] => .ok ([], [])
  | sep :: rest =>
    if sep = LIST_SEPARATOR then
      match hc : parse_config_cell rest with
      | .error msg => .error msg
      | .ok (cell, newRem) =>
        if cell.head? = some '#' then .ok ([], slice_to_eol newRem)
        else if rest = newRem then .ok ([cell], rest)
        else
          match parse_line_loop newRem with
          | .error msg => .error msg
          | .ok (cells, rem) => .ok (cell :: cells, rem)
    else .ok ([], sep :: rest)
termination_by input.length
decreasing_by
  have hle := parse_config_cell_length _ _ _ hc
  simp only [List.length_cons]
  omega

/-- The line-ending consumption of parse_config_line (lines 464-478):
CR, CRLF or LF is consumed; anything else is left in place. -/
def consume_eol (input : List Char) : List Char :=
  match input with
  | '\r' :: rest =>
    match rest with
    | '\n' :: rest2 => rest2
    | _ => rest
  | '\n' :: rest => rest
  | other => other

/-- config.rs `parse_config_line` (lines 407-481).  Note the comment branch:
when the first cell starts with `#` the function returns the empty cell list
together with the ORIGINAL input, exactly as the source does
(`return Ok((Vec::new(), input))` at line 418). -/
def parse_config_line (input : List Char) : Except String (List (List Char) × List Char) :=
  match input with
  | [] => .ok ([], [])
  | _ =>
    match parse_config_cell input with
    | .error msg => .error msg
    | .ok (firstCell, firstRem) =>
      if firstCell.head? = some '#' then .ok ([], input)
      else
        match parse_line_loop firstRem with
        | .error msg => .error msg
        | .ok (cells, rem) => .ok (firstCell :: cells, consume_eol rem)

/-- One step of `ConfigLineIterator::next` (config.rs lines 254-280), with
fuel standing in for the Rust recursion `return self.next()`. -/
inductive IterStep where
  | yields (cells : List (List Char)) (newPos : Nat)
  | done
  | erred (msg : String)
  | fuelOut
deriving DecidableEq

/-- config.rs `ConfigLineIterator::next`: the iterator keeps the whole
content and a byte position; a parse that returns no cells makes it call
itself again at the updated position.  The fuel parameter bounds that
self-recursion, which the Rust code leaves unbounded. -/
def iter_next_fuel (content : List Char) : Nat → Nat → IterStep
  | 0, _ => .fuelOut
  | fuel + 1, pos =>
    if content.length ≤ pos then .done
    else
      match parse_config_line (content.drop pos) with
      | .error msg => .erred msg
      | .ok (cells, rem) =>
        let newPos := content.length - rem.length
        match cells with
        | [] => iter_next_fuel content fuel newPos
        | _ => .yields cells newPos

/-! ## Configuration (src/src/config.rs) -/

/-- config.rs `Config` (lines 11-38).  All fields are the source's, in the
source's order; `recurse_pfx` embeds the field the source calls the recurse
display prefix (renamed here for style reasons only). -/
structure Config where
  config_filename : String
  list_filename : String
  recurse_enabled : Bool
  rlogin : String
  rpath_base : String
  rpath_template : String
  local_dir : String
  gm_dir : String
  remote_dir : String
  git_args : String
  config_cmd : String
  recurse_pfx : String
  tree_filter : String
deriving DecidableEq

/-- config.rs `Config::new` (lines 42-58). -/
def Config.new : Config where
  config_filename := ".grm.conf"
  list_filename := ""
  recurse_enabled := true
  rlogin := ""
  rpath_base := ""
  rpath_template := ""
  local_dir := ""
  gm_dir := ""
  remote_dir := ""
  git_args := ""
  config_cmd := ""
  recurse_pfx := ""
  tree_filter := ""

/-- config.rs `Config::set_from_string` (lines 207-224): unknown keys are
ignored; OPT_RECURSE becomes the emptiness test of the value. -/
def Config.set_from_string (c : Config) (key : String) (value : String) : Config :=
  if key = "CONFIG_FILENAME" then { c with config_filename := value }
  else if key = "LIST_FN" then { c with list_filename := value }
  else if key = "OPT_RECURSE" then { c with recurse_enabled := !value.isEmpty }
  else if key = "RLOGIN" then { c with rlogin := value }
  else if key = "RPATH_BASE" then { c with rpath_base := value }
  else if key = "RPATH_TEMPLATE" then { c with rpath_template := value }
  else if key = "LOCAL_DIR" then { c with local_dir := value }
  else if key = "GM_DIR" then { c with gm_dir := value }
  else if key = "REMOTE_DIR" then { c with remote_dir := value }
  else if key = "GIT_ARGS" then { c with git_args := value }
  else if key = "CONFIG_CMD" then { c with config_cmd := value }
  else if key = "RECURSE_PREFIX" then { c with recurse_pfx := value }
  else if key = "TREE_FILTER" then { c with tree_filter := value }
  else c

/-- One conditional push of `Config::all_values`: a pair is emitted only
when the value is non-empty. -/
def opt_pair (key value : String) : List (String × String) :=
  if value = "" then [] else [(key, value)]

/-- config.rs `Config::all_values` (lines 63-112): the three unconditional
pushes followed by the ten conditional ones, in source order. -/
def Config.all_values (c : Config) : List (String × String) :=
  [("CONFIG_FILENAME", c.config_filename),
   ("LIST_FN", c.list_filename),
   ("OPT_RECURSE", if c.recurse_enabled then "1" else "")]
  ++ opt_pair "RLOGIN" c.rlogin
  ++ opt_pair "RPATH_BASE" c.rpath_base
  ++ opt_pair "RPATH_TEMPLATE" c.rpath_template
  ++ opt_pair "LOCAL_DIR" c.local_dir
  ++ opt_pair "GM_DIR" c.gm_dir
  ++ opt_pair "REMOTE_DIR" c.remote_dir
  ++ opt_pair "GIT_ARGS" c.git_args
  ++ opt_pair "CONFIG_CMD" c.config_cmd
  ++ opt_pair "RECURSE_PREFIX" c.recurse_pfx
  ++ opt_pair "TREE_FILTER" c.tree_filter

/-- Apply `set_from_string` for each pair in order, as the recursive child
invocation does with the GRM_-prefixed environment it receives
(config.rs `load_from_env`, recursive.rs `recurse_to_subdirectory`). -/
def apply_values (c : Config) (l : List (String × String)) : Config :=
  l.foldl (fun acc p => acc.set_from_string p.1 p.2) c

/-- The per-line validation of config.rs `Config::load_from_file`
(lines 162-204), applied to the sequence of cell vectors the iterator
yields: a line must have exactly 3 cells, an empty first cell and a
non-empty key; the first failure aborts the whole load with an error. -/
def load_config_lines (c : Config) : List (List String) → Except String Config
  | [] => .ok c
  | cells :: rest =>
    if cells.length ≠ 3 then
      .error "Config line does not have the required 3 columns"
    else if cells.getD 0 "" ≠ "" then
      .error "Repository specification found in config file"
    else if cells.getD 1 "" = "" then
      .error "Config line has empty key"
    else
      load_config_lines (c.set_from_string (cells.getD 1 "") (cells.getD 2 "")) rest

/-! ## Modes and operations (src/src/mode.rs) -/

/-- mode.rs `PrimaryMode` (lines 15-38). -/
inductive PrimaryMode where
  | clone
  | git
  | setRemote
  | configure
  | listRrel
  | listRurl
  | listLrel
  | run
  | new
deriving DecidableEq, Fintype

/-- mode.rs `Operations` (lines 42-61). -/
structure Operations where
  clone : Bool := false
  configure : Bool := false
  set_remote : Bool := false
  git : Bool := false
  new : Bool := false
  debug : Bool := false
  list_rrel : Bool := false
  list_rurl : Bool := false
  list_lrel : Bool := false
deriving DecidableEq

/-- mode.rs `From<PrimaryMode> for Operations` (lines 63-102): the fixed
bundle of boolean actions activated by the primary mode. -/
def operations_from : PrimaryMode → Operations
  | .clone => { clone := true, configure := true }
  | .git => { git := true, set_remote := true, configure := true }
  | .setRemote => { set_remote := true }
  | .configure => { configure := true }
  | .listRrel => { list_rrel := true }
  | .listRurl => { list_rurl := true }
  | .listLrel => { list_lrel := true }
  | .run => { clone := true, set_remote := true, configure := true }
  | .new => { new := true }

/-- mode.rs `is_listing_mode` (lines 131-136), stated on the operation
flags the three listing modes set. -/
def Operations.is_listing_mode (ops : Operations) : Bool :=
  ops.list_rrel || ops.list_rurl || ops.list_lrel

/-! ## Repository reconciliation engine (src/src/main.rs process_repo,
src/src/repository.rs) -/

/-- The observable steps `process_repo` can take, in source order: the three
listing prints, the error reports, and the external actions (git and shell
invocations through repository.rs). -/
inductive Event where
  | printRrel
  | printLrel
  | printRurl
  | errNotExist
  | errNotDir
  | errCheckFailed
  | errNotRepo
  | msgExists
  | msgAlreadyExists
  | cloneNoCheckout
  | configure
  | checkout
  | setRemote
  | runGit
  | createNew
deriving DecidableEq, Fintype

/-- An event mutates local or remote state; prints and error reports do
not. -/
def Event.is_mutating : Event → Bool
  | .cloneNoCheckout => true
  | .configure => true
  | .checkout => true
  | .setRemote => true
  | .runGit => true
  | .createNew => true
  | _ => false

/-- The four states `process_repo` distinguishes for the local path
(main.rs lines 100-181): missing, exists-but-not-directory, the
`is_dir_repo_root` check failing, repository root, and directory that is
not a repository root. -/
inductive PathState where
  | missing
  | file
  | checkFailed
  | repo
  | dir
deriving DecidableEq, Fintype

/-- main.rs `process_repo` (lines 59-182) as the trace of events it emits,
one entry per print, error report or external action, in program order.
`git_args_empty` abstracts `config.git_args.is_empty()` in the git branch. -/
def process_repo (ops : Operations) (st : PathState) (git_args_empty : Bool) : List Event :=
  if ops.list_rrel then [.printRrel]
  else if ops.list_lrel then [.printLrel]
  else if ops.list_rurl then [.printRurl]
  else if ops.is_listing_mode then []
  else
    match st with
    | .missing =>
      if ops.new then [.errNotExist]
      else if !ops.clone then [.errNotExist]
      else [.cloneNoCheckout, .configure, .checkout]
    | .file => [.errNotDir]
    | .checkFailed => [.errCheckFailed]
    | .repo =>
      if ops.new then [.msgAlreadyExists]
      else
        [.msgExists]
        ++ (if ops.set_remote then [.setRemote] else [])
        ++ (if ops.configure then [.configure] else [])
        ++ (if ops.git && !git_args_empty then [.runGit] else [])
    | .dir =>
      if !ops.new then [.errNotRepo]
      else [.createNew]

/-- The single listing event a listing mode prints, selected exactly as the
flag checks at the top of `process_repo` select it. -/
def listing_event (ops : Operations) : Event :=
  if ops.list_rrel then .printRrel
  else if ops.list_lrel then .printLrel
  else .printRurl

/-! ## Path resolution and repository-line processing (src/src/main.rs) -/

/-- main.rs `get_local_repo_path` (lines 454-463): plain concatenation of
the configured local base directory and the relative path. -/
def get_local_repo_path (c : Config) (repo_path : String) : String :=
  if c.local_dir ≠ "" then
    if repo_path ≠ "" then c.local_dir ++ "/" ++ repo_path else c.local_dir
  else repo_path

/-- main.rs `get_remote_repo_path` (lines 430-439). -/
def get_remote_repo_path (c : Config) (repo_path : String) : String :=
  if c.remote_dir ≠ "" then
    if repo_path ≠ "" then c.remote_dir ++ "/" ++ repo_path else c.remote_dir
  else repo_path

/-- main.rs `get_media_repo_path` (lines 442-451). -/
def get_media_repo_path (c : Config) (repo_path : String) : String :=
  if c.gm_dir ≠ "" then
    if repo_path ≠ "" then c.gm_dir ++ "/" ++ repo_path else c.gm_dir
  else repo_path

/-- Rust `str::starts_with('/')`, stated on the character list so that it
computes by kernel reduction. -/
def starts_with_slash (s : String) : Bool :=
  match s.toList with
  | '/' :: _ => true
  | _ => false

/-- Rust `str::starts_with('#')`, stated on the character list so that it
computes by kernel reduction. -/
def starts_with_hash (s : String) : Bool :=
  match s.toList with
  | '#' :: _ => true
  | _ => false

/-- Strip every leading "./" from a segment, as Rust
`trim_start_matches("./")` does. -/
def trim_dot_slash : List Char → List Char
  | '.' :: '/' :: rest => trim_dot_slash rest
  | other => other

/-- The loop body of main.rs `cat_path` (lines 376-394): empty pieces are
skipped, each piece loses its leading "./" repetitions, pieces are joined
with "/", and a piece that starts with "/" ends the walk right after being
appended.  (`cat_path` is present in main.rs but no longer called by the
path-qualification functions above.) -/
def cat_path_go (result : String) : List String → String
  | [] => result
  | p :: rest =>
    if p = "" then cat_path_go result rest
    else
      let p2 := String.mk (trim_dot_slash p.toList)
      let result2 := if result ≠ "" then result ++ "/" ++ p2 else result ++ p2
      if starts_with_slash p2 then result2 else cat_path_go result2 rest

/-- main.rs `cat_path` (lines 376-394). -/
def cat_path (pieces : List String) : String :=
  cat_path_go "" pieces

/-- The qualification rule as the specification words it: an
already-absolute component is returned unchanged, an empty relative
component yields the bare base, otherwise base + "/" + relative with
redundant leading "./" stripped from each input segment. -/
def spec_qualify (base rel : String) : String :=
  if starts_with_slash rel then rel
  else if rel = "" then base
  else String.mk (trim_dot_slash base.toList) ++ "/" ++ String.mk (trim_dot_slash rel.toList)

/-- The qualification rule the source actually implements, shared by the
three `get_*_repo_path` functions: empty base yields the relative component,
empty relative component yields the bare base, otherwise plain
base + "/" + relative. -/
def plain_qualify (base rel : String) : String :=
  if base = "" then rel
  else if rel = "" then base
  else base ++ "/" ++ rel

/-- The basename extraction of main.rs `process_repo_cells` (line 274):
Rust regex `([^/]+?)(?:\.git)?$` with leftmost-then-lazy match semantics.
A match must lie inside the final `/`-delimited component (the class
`[^/]` cannot cross a slash and `$` anchors the end); the lazy group takes
the shortest non-empty prefix of that component that leaves either ".git"
or nothing before the end, so exactly one ".git" suffix is stripped when
the component has a non-empty stem, the component ".git" itself is kept
(the group must be non-empty), and an empty final component has no match,
giving the empty string.  The final component is obtained reversed by
`takeWhile` on the reversed characters, so the ".git" suffix appears here
as the prefix "tig.". -/
def repo_name_from_remote (remote : String) : String :=
  match remote.toList.reverse.takeWhile (fun c => c != '/') with
  | [] => ""
  | 't' :: 'i' :: 'g' :: '.' :: rest =>
    if rest = [] then ".git" else String.mk rest.reverse
  | other => String.mk other.reverse

/-- The default-filling of main.rs `process_repo_cells` (lines 267-299):
the first cell is the remote relative path; the second defaults to the
repo name when empty or absent; the third defaults to the second when
empty or absent. -/
def process_repo_cells_defaults (cells : List String) : String × String × String :=
  let remote_rel := cells.getD 0 ""
  let repo_name := repo_name_from_remote remote_rel
  let local_rel :=
    if 1 < cells.length ∧ cells.getD 1 "" ≠ "" then cells.getD 1 "" else repo_name
  let media_rel :=
    if 2 < cells.length ∧ cells.getD 2 "" ≠ "" then cells.getD 2 "" else local_rel
  (remote_rel, local_rel, media_rel)

/-- The needle starts the haystack. -/
def prefix_of : List Char → List Char → Bool
  | [], _ => true
  | _ :: _, [] => false
  | a :: as, b :: bs => a == b && prefix_of as bs

/-- The needle occurs somewhere in the haystack. -/
def contains_list (hay needle : List Char) : Bool :=
  match hay with
  | [] => needle.isEmpty
  | _ :: rest => prefix_of needle hay || contains_list rest needle

/-- Rust `str::contains(&str)`: substring containment as a Bool. -/
def str_contains (hay needle : String) : Bool :=
  contains_list hay.toList needle.toList

/-- The separator normalization of main.rs lines 311-312:
`.replace('\\', "/")`. -/
def normalize_seps (s : String) : String :=
  s.map (fun c => if c = '\\' then '/' else c)

/-- `current_dir.join(&local_path)` of main.rs line 310: Rust `Path::join`
replaces the base entirely when the joined path is absolute, otherwise
appends it after a separator. -/
def join_path (cwd p : String) : String :=
  if starts_with_slash p then p else cwd ++ "/" ++ p

/-- main.rs `process_repo_cells` (lines 267-332): fill defaults, qualify
local and media paths, then apply the tree filter: under a non-empty
filter, a repository whose absolute separator-normalized local path does
not contain the normalized filter string is skipped (`none`); otherwise
the triple handed to `process_repo` is produced. -/
def process_repo_cells (c : Config) (cwd : String) (cells : List String) :
    Option (String × String × String) :=
  let d := process_repo_cells_defaults cells
  let local_path := get_local_repo_path c d.2.1
  let media_path := get_media_repo_path c d.2.2
  if c.tree_filter ≠ "" ∧
      str_contains (normalize_seps (join_path cwd local_path))
        (normalize_seps c.tree_filter) = false
  then none
  else some (local_path, d.1, media_path)

/-- The comment check of main.rs `process_repo_line` (lines 237-244): the
first non-empty cell, when one exists, decides whether the line is a
comment. -/
def first_cell_comment (cells : List String) : Bool :=
  match cells.find? (fun s => s != "") with
  | some s => starts_with_hash s
  | none => false

/-- main.rs `process_repo_line` (lines 230-258): empty cell vectors and
comment lines are skipped; a line whose first cell is empty is a config
line, applied only when at least 3 cells are present and never an error;
anything else is a repository specification, handed on (returned here as
`some cells`). -/
def process_repo_line (c : Config) (cells : List String) :
    Except String (Config × Option (List String)) :=
  if cells = [] then .ok (c, none)
  else if first_cell_comment cells then .ok (c, none)
  else if cells.getD 0 "" = "" then
    if 3 ≤ cells.length then
      .ok (c.set_from_string (cells.getD 1 "") (cells.getD 2 ""), none)
    else .ok (c, none)
  else .ok (c, some cells)

/-! ## repository.rs: set_remote and the configure command -/

/-- The git invocations `set_remote` can make. -/
inductive RemoteStep where
  | setUrl
  | addForce
deriving DecidableEq

/-- repository.rs `set_remote` (lines 102-122), parameterized by the exit
status of `git remote set-url origin URL` and, when it is reached, the
exit status of the fallback `git remote add -f origin URL`: exit status 2
(no such remote) triggers the fallback, any other non-zero status is an
error, and the fallback itself errors only when the add fails. -/
def set_remote (set_url_status : Int) (add_status : Int) :
    Except String (List RemoteStep) :=
  if set_url_status = 2 then
    if add_status ≠ 0 then
      .error "Git command remote add -f origin failed"
    else .ok [.setUrl, .addForce]
  else if set_url_status ≠ 0 then
    .error "Failed to set remote"
  else .ok [.setUrl]

/-- repository.rs `detect_shell_command` (lines 244-315) on a non-Windows
platform (`cfg!(windows)` is false): a recognized $SHELL (bash, sh, zsh,
fish) is used directly, anything else falls through to the Unix default
"sh"; every branch passes exactly ["-c", cmd] with the command string
unchanged. -/
def detect_shell_command (shell_var : Option String) (cmd : String) : String × List String :=
  match shell_var with
  | some shell_path =>
    let shell_name := String.mk ((shell_path.toList.reverse.takeWhile (fun c => c != '/')).reverse)
    if str_contains shell_name "bash" || shell_name = "sh" || str_contains shell_name "zsh"
        || str_contains shell_name "fish"
    then (shell_path, ["-c", cmd])
    else ("sh", ["-c", cmd])
  | none => ("sh", ["-c", cmd])

/-- repository.rs `execute_config_cmd` (lines 318-342): the spawned process
as (working directory, shell executable, shell arguments); `none` when no
CONFIG_CMD is configured.  The command string handed to the shell is
`config.config_cmd` itself — nothing is appended to it. -/
def execute_config_cmd (shell_var : Option String) (c : Config) (local_path : String) :
    Option (String × String × List String) :=
  if c.config_cmd = "" then none
  else
    let sc := detect_shell_command shell_var c.config_cmd
    some (local_path, sc.1, sc.2)

/-- repository.rs `configure_repo` (lines 97-99): the media path parameter
is received as `_media_path` and never used. -/
def configure_repo (shell_var : Option String) (local_path _media_path : String) (c : Config) :
    Option (String × String × List String) :=
  execute_config_cmd shell_var c local_path

/-! ## Claim theorems -/

/-- Claim C1: for every operation set derived from a primary mode, a
Missing local path under an enabled clone flag produces exactly
clone-without-checkout, then configure, then checkout, in that order; with
clone disabled (and no listing mode) only the does-not-exist error is
reported, which mutates nothing; and in a listing mode the entry
representation is printed and processing stops with no mutating step, for
every path state. -/
theorem c1_missing_clone_order :
    ∀ (m : PrimaryMode) (g : Bool),
      ((operations_from m).clone = true →
        process_repo (operations_from m) .missing g =
          [.cloneNoCheckout, .configure, .checkout]) ∧
      ((operations_from m).clone = false → (operations_from m).is_listing_mode = false →
        process_repo (operations_from m) .missing g = [.errNotExist]) ∧
      ((operations_from m).is_listing_mode = true →
        ∀ st, process_repo (operations_from m) st g = [listing_event (operations_from m)] ∧
          (listing_event (operations_from m)).is_mutating = false) ∧
      Event.errNotExist.is_mutating = false := by
  decide

/-- Witness for C1 at the clone mode: the Missing-state trace is exactly
clone, configure, checkout. -/
theorem c1_witness :
    process_repo (operations_from .clone) .missing false =
      [.cloneNoCheckout, .configure, .checkout] :=
  (c1_missing_clone_order .clone false).1 rfl

/-- Claim C4: `set_remote` falls back to `git remote add -f origin` exactly
when `git remote set-url` exits with status 2, and then succeeds (when the
add succeeds); every other non-zero set-url exit status is an error; a zero
status needs no fallback. -/
theorem c4_set_remote_fallback :
    ∀ (a : Int),
      (set_remote 2 0 = .ok [.setUrl, .addForce]) ∧
      (∀ s : Int, s ≠ 0 → s ≠ 2 → set_remote s a = .error "Failed to set remote") ∧
      (set_remote 0 a = .ok [.setUrl]) := by
  intro a
  refine ⟨rfl, ?_, rfl⟩
  intro s h0 h2
  simp [set_remote, h0, h2]

/-- Claim C7: in the config-file context a line with a cell count other
than 3, or with a non-empty first cell, aborts the whole load with an
error; in the listfile context every line whose first cell is empty is
tolerated without error and yields no repository specification. -/
theorem c7_strict_config_lenient_listfile :
    ∀ (c : Config) (cells : List String) (rest : List (List String)),
      ((cells.length ≠ 3 ∨ cells.getD 0 "" ≠ "") →
        ∃ msg, load_config_lines c (cells :: rest) = .error msg) ∧
      (cells.getD 0 "" = "" →
        ∃ c2, process_repo_line c cells = .ok (c2, none)) := by
  intro c cells rest
  constructor
  · intro h
    by_cases hl : cells.length = 3
    · rcases h with h | h
      · exact absurd hl h
      · refine ⟨"Repository specification found in config file", ?_⟩
        unfold load_config_lines
        rw [if_neg (fun hh => hh hl), if_pos h]
    · refine ⟨"Config line does not have the required 3 columns", ?_⟩
      unfold load_config_lines
      rw [if_pos hl]
  · intro h
    by_cases he : cells = []
    · exact ⟨c, by rw [process_repo_line, if_pos he]⟩
    · by_cases hcom : first_cell_comment cells = true
      · exact ⟨c, by rw [process_repo_line, if_neg he, if_pos hcom]⟩
      · by_cases h3 : 3 ≤ cells.length
        · exact ⟨_, by rw [process_repo_line, if_neg he, if_neg hcom, if_pos h, if_pos h3]⟩
        · exact ⟨c, by rw [process_repo_line, if_neg he, if_neg hcom, if_pos h, if_neg h3]⟩

/-- Claim C9: under a non-empty tree filter, a declaration reaches
`process_repo` exactly when the separator-normalized absolute local path
contains the normalized filter string as a substring. -/
theorem c9_tree_filter_substring :
    ∀ (c : Config) (cwd : String) (cells : List String),
      c.tree_filter ≠ "" →
      ((∃ r, process_repo_cells c cwd cells = some r) ↔
        str_contains
          (normalize_seps
            (join_path cwd (get_local_repo_path c (process_repo_cells_defaults cells).2.1)))
          (normalize_seps c.tree_filter) = true) := by
  intro c cwd cells hf
  cases hb : str_contains
      (normalize_seps
        (join_path cwd (get_local_repo_path c (process_repo_cells_defaults cells).2.1)))
      (normalize_seps c.tree_filter) with
  | false => simp [process_repo_cells, hf, hb]
  | true => simp [process_repo_cells, hf, hb]

/-- Witness for C9: with filter "/home/u" and a declaration resolving to
local path "name" under working directory "/home/u", the equivalence holds
at a concrete input. -/
theorem c9_witness :
    (∃ r, process_repo_cells { Config.new with tree_filter := "/home/u" } "/home/u"
        ["group/name.git"] = some r) ↔
      str_contains
        (normalize_seps (join_path "/home/u"
          (get_local_repo_path { Config.new with tree_filter := "/home/u" }
            (process_repo_cells_defaults ["group/name.git"]).2.1)))
        (normalize_seps "/home/u") = true :=
  c9_tree_filter_substring _ _ _ (by decide)

/-- Claim C5 evidence: `configure_repo` ignores its media-path parameter
entirely — the spawned configure command is identical for any two media
paths — and at a concrete configuration the shell is handed exactly the
CONFIG_CMD string with the media path nowhere in it. -/
theorem c5_media_path_dropped :
    (∀ (sv : Option String) (l m1 m2 : String) (c : Config),
        configure_repo sv l m1 c = configure_repo sv l m2 c) ∧
    configure_repo none "repo" "media/x" { Config.new with config_cmd := "configure.sh" } =
      some ("repo", "sh", ["-c", "configure.sh"]) ∧
    str_contains "configure.sh" "media/x" = false := by
  refine ⟨fun sv l m1 m2 c => rfl, rfl, by decide⟩

/-- Counterexample to claim C6 as stated: with remote "group/name.git", an
explicit local cell "loc" and an empty media cell, the media component
defaults to the local override "loc", not to the remote basename "name". -/
theorem c6_counterexample :
    process_repo_cells_defaults ["group/name.git", "loc", ""] =
      ("group/name.git", "loc", "loc") ∧
    repo_name_from_remote "group/name.git" = "name" ∧
    ("loc" : String) ≠ "name" := by
  refine ⟨by decide, by decide, by decide⟩

/-- Claim C6 as amended: an empty or absent local cell defaults local_rel
to the remote basename with one trailing ".git" stripped; an empty or
absent media cell defaults media_rel to local_rel (hence to the basename
exactly when the local cell is also empty or absent); in particular
"group/name.git" with empty local and media cells yields
local_rel = media_rel = "name". -/
theorem c6_defaults_basename :
    ∀ (cells : List String),
      ((cells.getD 1 "" = "" →
        (process_repo_cells_defaults cells).2.1 =
          repo_name_from_remote (cells.getD 0 "")) ∧
       (cells.getD 2 "" = "" →
        (process_repo_cells_defaults cells).2.2 =
          (process_repo_cells_defaults cells).2.1)) ∧
      process_repo_cells_defaults ["group/name.git", "", ""] =
        ("group/name.git", "name", "name") := by
  intro cells
  refine ⟨⟨?_, ?_⟩, by decide⟩
  · intro h
    have h2 : cells[1]?.getD "" = "" := by simpa using h
    simp [process_repo_cells_defaults, h2]
  · intro h
    have h2 : cells[2]?.getD "" = "" := by simpa using h
    simp [process_repo_cells_defaults, h2]

/-- Witness for C6 at the claim scenario: remote "group/name.git" with
empty local and media cells yields local_rel = media_rel = "name". -/
theorem c6_witness :
    (process_repo_cells_defaults ["group/name.git", "", ""]).2.1 =
      repo_name_from_remote "group/name.git" ∧
    (process_repo_cells_defaults ["group/name.git", "", ""]).2.2 =
      (process_repo_cells_defaults ["group/name.git", "", ""]).2.1 :=
  ⟨(c6_defaults_basename ["group/name.git", "", ""]).1.1 rfl,
   (c6_defaults_basename ["group/name.git", "", ""]).1.2 rfl⟩

/-- Counterexample to claim C8 as stated: qualifying the already-absolute
component "/abs" against base "base" yields "base//abs", not the component
unchanged as the spec rule (`spec_qualify`) requires. -/
theorem c8_counterexample :
    get_local_repo_path { Config.new with local_dir := "base" } "/abs" = "base//abs" ∧
    spec_qualify "base" "/abs" = "/abs" ∧
    ("base//abs" : String) ≠ "/abs" :=
  ⟨rfl, rfl, by decide⟩

/-- Claim C8 as amended: each of the three qualification functions is
plain concatenation — an empty base yields the relative component, an
empty relative component yields the bare base, and otherwise
base + "/" + relative, with no absolute-path special case and no "./"
stripping. -/
theorem c8_plain_concat :
    ∀ (c : Config) (rel : String),
      get_local_repo_path c rel = plain_qualify c.local_dir rel ∧
      get_remote_repo_path c rel = plain_qualify c.remote_dir rel ∧
      get_media_repo_path c rel = plain_qualify c.gm_dir rel := by
  intro c rel
  refine ⟨?_, ?_, ?_⟩
  · by_cases hb : c.local_dir = "" <;> by_cases hr : rel = "" <;>
      simp [get_local_repo_path, plain_qualify, hb, hr]
  · by_cases hb : c.remote_dir = "" <;> by_cases hr : rel = "" <;>
      simp [get_remote_repo_path, plain_qualify, hb, hr]
  · by_cases hb : c.gm_dir = "" <;> by_cases hr : rel = "" <;>
      simp [get_media_repo_path, plain_qualify, hb, hr]

/-- The comment-only input exercising claim C2: one physical line holding
only a comment. -/
def comment_input : List Char := '#' :: ' ' :: 'c' :: []

/-- Claim C2 evidence: on a comment-only line `parse_config_line` returns
the empty cell vector together with the WHOLE unconsumed input, so the
iterator position `content.len() - remainder.len()` never advances and the
`self.next()` recursion never terminates (every fuel bound is exhausted);
and a whitespace-only line is not filtered — it reaches the caller as a
line holding one empty cell. -/
theorem c2_comment_line_stalls :
    parse_config_line comment_input = .ok ([], comment_input) ∧
    (∀ fuel : Nat, iter_next_fuel comment_input fuel 0 = .fuelOut) ∧
    parse_config_line (' ' :: '\n' :: []) = .ok ([[]], []) := by
  have hstep : ∀ n : Nat, iter_next_fuel comment_input (n + 1) 0 =
      iter_next_fuel comment_input n 0 := fun n => rfl
  have hcell : parse_config_cell (' ' :: '\n' :: []) = .ok ([], '\n' :: []) := rfl
  have hloop : parse_line_loop ('\n' :: []) = .ok ([], '\n' :: []) := by
    rw [parse_line_loop.eq_def]
    simp [LIST_SEPARATOR]
  refine ⟨rfl, ?_, ?_⟩
  · intro fuel
    induction fuel with
    | zero => rfl
    | succ n ih => rw [hstep, ih]
  · unfold parse_config_line
    simp [hcell, hloop, consume_eol]

/-! ## Claim C3: escaping round-trip -/

/-- The characters the round-trip claim escapes: separator, backslash,
comment marker. -/
def needs_escape (c : Char) : Bool :=
  c == LIST_SEPARATOR || c == '\\' || c == '#'

/-- Escape each separator, backslash and comment-marker character with a
backslash. -/
def escape_cell : List Char → List Char
  | [] => []
  | c :: rest =>
    if needs_escape c then '\\' :: c :: escape_cell rest
    else c :: escape_cell rest

theorem escape_parse_go :
    ∀ (s : List Char), (∀ c ∈ s, c ≠ '\r' ∧ c ≠ '\n') →
      parse_cell_go (escape_cell s) =
        .ok (s.map (fun c => (c, needs_escape c)), []) := by
  intro s
  induction s with
  | nil => intro _; rfl
  | cons c rest ih =>
    intro h
    have hrest := fun d hd => h d (List.mem_cons_of_mem _ hd)
    have hc1 : c ≠ '\r' := (h c (List.mem_cons_self _ _)).1
    have hc2 : c ≠ '\n' := (h c (List.mem_cons_self _ _)).2
    by_cases hesc : needs_escape c = true
    · have hE : escape_cell (c :: rest) = '\\' :: c :: escape_cell rest := by
        simp [escape_cell, hesc]
      rw [hE, parse_cell_go_cons, if_neg (by decide), if_pos rfl]
      simp only [ih hrest]
      simp [hesc]
    · have h3 : c ≠ LIST_SEPARATOR := fun hh => hesc (by simp [needs_escape, hh])
      have h4 : c ≠ '\\' := fun hh => hesc (by simp [needs_escape, hh])
      have hE : escape_cell (c :: rest) = c :: escape_cell rest := by
        simp [escape_cell, hesc]
      rw [hE, parse_cell_go_cons, if_neg (by simp [hc1, hc2, h3]), if_neg h4]
      simp only [ih hrest]
      simp [hesc]

theorem escape_skip (s : List Char)
    (hhead : ∀ c, s.head? = some c → is_rust_whitespace c = false) :
    skip_whitespace (escape_cell s) = escape_cell s := by
  cases s with
  | nil => rfl
  | cons c rest =>
    by_cases hesc : needs_escape c = true
    · have hE : escape_cell (c :: rest) = '\\' :: c :: escape_cell rest := by
        simp [escape_cell, hesc]
      rw [hE]
      unfold skip_whitespace
      rw [List.dropWhile_cons, if_neg (by decide)]
    · have hE : escape_cell (c :: rest) = c :: escape_cell rest := by
        simp [escape_cell, hesc]
      have hw : is_rust_whitespace c = false := hhead c rfl
      rw [hE]
      unfold skip_whitespace
      rw [List.dropWhile_cons, if_neg (by simp [hw])]

theorem escape_rtrim (s : List Char)
    (hlast : ∀ c, s.getLast? = some c → is_rust_whitespace c = false) :
    rtrim_items (s.map (fun c => (c, needs_escape c))) = s := by
  unfold rtrim_items
  rw [← List.map_reverse]
  cases hrev : s.reverse with
  | nil =>
    have hs : s = [] := List.reverse_eq_nil_iff.mp hrev
    subst hs
    rfl
  | cons c cs =>
    have hw : is_rust_whitespace c = false := by
      apply hlast
      rw [← List.head?_reverse, hrev]
      rfl
    rw [List.map_cons, List.dropWhile_cons]
    rw [show (!needs_escape c && is_rust_whitespace c) = false by simp [hw]]
    simp only [Bool.false_eq_true, if_false]
    show List.map Prod.fst (List.map (fun c => (c, needs_escape c)) (c :: cs)).reverse = s
    rw [← hrev, ← List.map_reverse, List.reverse_reverse, List.map_map]
    exact List.map_id s

/-- Claim C3 as amended: for every string with no CR or LF, no leading
whitespace and no trailing whitespace (whitespace as Rust
`char::is_whitespace`, the Unicode White_Space property), escaping every
separator, backslash
and comment-marker character with a backslash and then tokenizing one cell
yields back exactly the original string, consuming the whole input: the
escaped characters decode to their literal selves, are not split on and are
not trimmed.  (Strings with leading or trailing whitespace, or with
embedded CR or LF, do not round-trip, because the escape function does not
protect those characters: leading whitespace is skipped and trailing
whitespace is right-trimmed.) -/
theorem c3_escape_roundtrip_amended :
    ∀ (s : List Char),
      (∀ c ∈ s, c ≠ '\r' ∧ c ≠ '\n') →
      (∀ c, s.head? = some c → is_rust_whitespace c = false) →
      (∀ c, s.getLast? = some c → is_rust_whitespace c = false) →
      parse_config_cell (escape_cell s) = .ok (s, []) := by
  intro s hcr hhead hlast
  have hskip := escape_skip s hhead
  have hgo := escape_parse_go s hcr
  have hrt := escape_rtrim s hlast
  unfold parse_config_cell
  rw [hskip]
  cases s with
  | nil => rfl
  | cons c rest =>
    by_cases hesc : needs_escape c = true
    · have hE : escape_cell (c :: rest) = '\\' :: c :: escape_cell rest := by
        simp [escape_cell, hesc]
      simp only [hE]
      rw [if_neg (by decide), ← hE]
      simp only [hgo]
      rw [hrt]
    · have h1 : c ≠ '\r' := (hcr c (List.mem_cons_self _ _)).1
      have h2 : c ≠ '\n' := (hcr c (List.mem_cons_self _ _)).2
      have h3 : c ≠ LIST_SEPARATOR := fun hh => hesc (by simp [needs_escape, hh])
      have hE : escape_cell (c :: rest) = c :: escape_cell rest := by
        simp [escape_cell, hesc]
      simp only [hE]
      rw [if_neg (by simp [h1, h2, h3]), ← hE]
      simp only [hgo]
      rw [hrt]

/-- Counterexample to claim C3 as stated for every string: "a " contains no
separator, backslash or comment marker, so escaping leaves it unchanged,
yet tokenizing right-trims the unescaped trailing space and returns the
cell "a", not "a ". -/
theorem c3_counterexample :
    escape_cell ('a' :: ' ' :: []) = 'a' :: ' ' :: [] ∧
    parse_config_cell ('a' :: ' ' :: []) = .ok ('a' :: [], []) ∧
    ('a' :: [] : List Char) ≠ 'a' :: ' ' :: [] :=
  ⟨rfl, rfl, by decide⟩

/-- Witness for C3 at the spec scenario: the escaped line "a/b.git\*c"
parses as the single cell "a/b.git*c". -/
theorem c3_witness :
    parse_config_cell
        ('a' :: '/' :: 'b' :: '.' :: 'g' :: 'i' :: 't' :: '\\' :: '*' :: 'c' :: []) =
      .ok ('a' :: '/' :: 'b' :: '.' :: 'g' :: 'i' :: 't' :: '*' :: 'c' :: [], []) :=
  c3_escape_roundtrip_amended
    ('a' :: '/' :: 'b' :: '.' :: 'g' :: 'i' :: 't' :: '*' :: 'c' :: [])
    (by decide)
    (by intro c hc; injection hc with hh; subst hh; decide)
    (by intro c hc; injection hc with hh; subst hh; decide)

/-! ## Claim C10: environment round trip -/

theorem apply_values_append (c : Config) (l1 l2 : List (String × String)) :
    apply_values c (l1 ++ l2) = apply_values (apply_values c l1) l2 := by
  simp [apply_values, List.foldl_append]

theorem apply_mandatory (cf lf : String) (re : Bool) :
    apply_values Config.new
      [("CONFIG_FILENAME", cf), ("LIST_FN", lf),
       ("OPT_RECURSE", if re then "1" else "")] =
      { Config.new with config_filename := cf, list_filename := lf,
                        recurse_enabled := re } := by
  cases re <;> rfl

theorem apply_opt_rlogin (a : Config) (v : String) (h : a.rlogin = "") :
    apply_values a (opt_pair "RLOGIN" v) = { a with rlogin := v } := by
  by_cases hv : v = ""
  · subst hv
    show a = { a with rlogin := "" }
    rw [← h]
  · simp only [opt_pair, if_neg hv]
    show Config.set_from_string a "RLOGIN" v = { a with rlogin := v }
    rfl

theorem apply_opt_rpath_base (a : Config) (v : String) (h : a.rpath_base = "") :
    apply_values a (opt_pair "RPATH_BASE" v) = { a with rpath_base := v } := by
  by_cases hv : v = ""
  · subst hv
    show a = { a with rpath_base := "" }
    rw [← h]
  · simp only [opt_pair, if_neg hv]
    show Config.set_from_string a "RPATH_BASE" v = { a with rpath_base := v }
    rfl

theorem apply_opt_rpath_template (a : Config) (v : String) (h : a.rpath_template = "") :
    apply_values a (opt_pair "RPATH_TEMPLATE" v) = { a with rpath_template := v } := by
  by_cases hv : v = ""
  · subst hv
    show a = { a with rpath_template := "" }
    rw [← h]
  · simp only [opt_pair, if_neg hv]
    show Config.set_from_string a "RPATH_TEMPLATE" v = { a with rpath_template := v }
    rfl

theorem apply_opt_local_dir (a : Config) (v : String) (h : a.local_dir = "") :
    apply_values a (opt_pair "LOCAL_DIR" v) = { a with local_dir := v } := by
  by_cases hv : v = ""
  · subst hv
    show a = { a with local_dir := "" }
    rw [← h]
  · simp only [opt_pair, if_neg hv]
    show Config.set_from_string a "LOCAL_DIR" v = { a with local_dir := v }
    rfl

theorem apply_opt_gm_dir (a : Config) (v : String) (h : a.gm_dir = "") :
    apply_values a (opt_pair "GM_DIR" v) = { a with gm_dir := v } := by
  by_cases hv : v = ""
  · subst hv
    show a = { a with gm_dir := "" }
    rw [← h]
  · simp only [opt_pair, if_neg hv]
    show Config.set_from_string a "GM_DIR" v = { a with gm_dir := v }
    rfl

theorem apply_opt_remote_dir (a : Config) (v : String) (h : a.remote_dir = "") :
    apply_values a (opt_pair "REMOTE_DIR" v) = { a with remote_dir := v } := by
  by_cases hv : v = ""
  · subst hv
    show a = { a with remote_dir := "" }
    rw [← h]
  · simp only [opt_pair, if_neg hv]
    show Config.set_from_string a "REMOTE_DIR" v = { a with remote_dir := v }
    rfl

theorem apply_opt_git_args (a : Config) (v : String) (h : a.git_args = "") :
    apply_values a (opt_pair "GIT_ARGS" v) = { a with git_args := v } := by
  by_cases hv : v = ""
  · subst hv
    show a = { a with git_args := "" }
    rw [← h]
  · simp only [opt_pair, if_neg hv]
    show Config.set_from_string a "GIT_ARGS" v = { a with git_args := v }
    rfl

theorem apply_opt_config_cmd (a : Config) (v : String) (h : a.config_cmd = "") :
    apply_values a (opt_pair "CONFIG_CMD" v) = { a with config_cmd := v } := by
  by_cases hv : v = ""
  · subst hv
    show a = { a with config_cmd := "" }
    rw [← h]
  · simp only [opt_pair, if_neg hv]
    show Config.set_from_string a "CONFIG_CMD" v = { a with config_cmd := v }
    rfl

theorem apply_opt_recurse_pfx (a : Config) (v : String) (h : a.recurse_pfx = "") :
    apply_values a (opt_pair "RECURSE_PREFIX" v) = { a with recurse_pfx := v } := by
  by_cases hv : v = ""
  · subst hv
    show a = { a with recurse_pfx := "" }
    rw [← h]
  · simp only [opt_pair, if_neg hv]
    show Config.set_from_string a "RECURSE_PREFIX" v = { a with recurse_pfx := v }
    rfl

theorem apply_opt_tree_filter (a : Config) (v : String) (h : a.tree_filter = "") :
    apply_values a (opt_pair "TREE_FILTER" v) = { a with tree_filter := v } := by
  by_cases hv : v = ""
  · subst hv
    show a = { a with tree_filter := "" }
    rw [← h]
  · simp only [opt_pair, if_neg hv]
    show Config.set_from_string a "TREE_FILTER" v = { a with tree_filter := v }
    rfl

/-- Claim C10: serialising a Config with `all_values` and replaying every
pair in order through `set_from_string` onto a freshly-defaulted Config
reproduces the original Config exactly — the environment serialisation used
for recursive child invocations loses no setting; empty-valued fields are
omitted and stay at their empty defaults, and the recursion toggle
round-trips through its "1"/empty encoding. -/
theorem c10_env_roundtrip :
    ∀ c : Config, apply_values Config.new c.all_values = c := by
  intro c
  obtain ⟨cf, lf, re, rl, rb, rt, ld, gm, rd, ga, cc, rp, tf⟩ := c
  show apply_values Config.new (Config.all_values ⟨cf, lf, re, rl, rb, rt, ld, gm, rd, ga, cc, rp, tf⟩) = _
  simp only [Config.all_values]
  rw [apply_values_append, apply_values_append, apply_values_append, apply_values_append,
      apply_values_append, apply_values_append, apply_values_append, apply_values_append,
      apply_values_append, apply_values_append]
  rw [apply_mandatory, apply_opt_rlogin _ _ rfl, apply_opt_rpath_base _ _ rfl,
      apply_opt_rpath_template _ _ rfl, apply_opt_local_dir _ _ rfl,
      apply_opt_gm_dir _ _ rfl, apply_opt_remote_dir _ _ rfl,
      apply_opt_git_args _ _ rfl, apply_opt_config_cmd _ _ rfl,
      apply_opt_recurse_pfx _ _ rfl, apply_opt_tree_filter _ _ rfl]
